import Mathlib

/-!
Shallow embedding of the rpminspect inspection engine (src/lib) and proofs
about the behaviour its specification describes.

Conventions of the embedding:
* C strings that may be NULL are `Option String`; a C `assert` failure or a
  NULL dereference is modelled by an `Option` result of `none` (no value is
  produced, mirroring that the C program aborts there).
* Machine integers that only count (seen/valid counters) are `Nat`; the paren
  balance counter is `Int` because it is compared against zero from below.
* The parsed JSON license database is a list of entries carrying the canonical
  name, the two abbreviation properties and the approval flag, matching the
  data model of the license database consumed by `check_license_abbrev`.
* Collaborator calls that live outside src/lib (libkmod, checksum, diff) are
  inputs of the embedded functions; repository helpers that are not under
  src/ are modelled from the spec and marked as such.
-/

namespace RpmInspect

/-- Severity vocabulary of results.c (`severity_t`), ordered OK < INFO < VERIFY < BAD < FATAL. -/
inductive Severity where
  | RESULT_OK
  | RESULT_INFO
  | RESULT_VERIFY
  | RESULT_BAD
  | RESULT_FATAL
deriving DecidableEq, Repr

/-- Waiver authority vocabulary (`waiverauth_t`). -/
inductive Waiver where
  | NOT_WAIVABLE
  | WAIVABLE_BY_ANYONE
  | WAIVABLE_BY_SECURITY
deriving DecidableEq, Repr

/-- Inspection tag constants (HEADER_* string constants of constants.h, kept opaque). -/
inductive InspectionTag where
  | HEADER_LICENSE
  | HEADER_METADATA
  | HEADER_KMOD
  | HEADER_UPSTREAM
deriving DecidableEq, Repr

/-- Remedy identifier constants (REMEDY_* string constants of constants.h, kept opaque). -/
inductive Remedy where
  | REMEDY_LICENSE
  | REMEDY_LICENSEDB
  | REMEDY_VENDOR
  | REMEDY_BUILDHOST
  | REMEDY_BADWORDS
  | REMEDY_KMOD_PARM
  | REMEDY_KMOD_DEPS
  | REMEDY_KMOD_ALIAS
  | REMEDY_UPSTREAM
deriving DecidableEq, Repr

/-- One recorded finding: the argument vector of one `add_result` call. -/
structure Finding where
  severity : Severity
  waiver : Waiver
  header : InspectionTag
  msg : Option String
  details : Option String
  remedy : Option Remedy
deriving DecidableEq, Repr

/-- One parsed license database entry: canonical name (the JSON key), the two
abbreviation properties and the approval flag collected by the inner property
loop of `check_license_abbrev` (src/lib/inspect_license.c lines 70-85). -/
structure LicenseEntry where
  license_name : String
  fedora_abbrev : String
  spdx_abbrev : String
  approved : Bool
deriving DecidableEq, Repr

/-- The parsed license database, in JSON object iteration order. -/
abbrev LicenseDB := List LicenseEntry

/-- Outcome of one `check_license_abbrev` call: `wholeMatch` is return 0 with
`*whole_match` set, `hit` is return 1, `miss` is return 0 with the flag clear. -/
inductive AbbrevResult where
  | wholeMatch
  | hit
  | miss
deriving DecidableEq, Repr

/-- `check_license_abbrev` (src/lib/inspect_license.c lines 61-112): scan the
database in order; an entry whose two abbreviations are both empty is skipped;
an approved entry equal to the whole tag (either abbreviation or the canonical
name) reports a whole match; an approved entry whose abbreviation equals the
current phrase reports one valid hit; otherwise keep scanning. -/
def check_license_abbrev (db : LicenseDB) (tag : String) (lic : String) : AbbrevResult :=
  match db with
  | [] => .miss
  | e :: rest =>
    if e.fedora_abbrev.length == 0 && e.spdx_abbrev.length == 0 then
      check_license_abbrev rest tag lic
    else if e.approved && (tag == e.fedora_abbrev || tag == e.spdx_abbrev || tag == e.license_name) then
      .wholeMatch
    else if e.approved && (lic == e.fedora_abbrev || lic == e.spdx_abbrev) then
      .hit
    else
      check_license_abbrev rest tag lic

/-- Per-character balance contribution of the paren scan of `is_valid_license`. -/
def paren_delta (c : Char) : Int :=
  if c == '(' then 1 else if c == ')' then -1 else 0

/-- The paren balance loop of `is_valid_license` (lines 224-242): fail as soon
as the balance is negative at the top of an iteration, and require a final
balance of zero after the scan. -/
def paren_scan : List Char → Int → Bool
  | [], bal => bal == 0
  | c :: rest, bal =>
    if bal < 0 then false
    else paren_scan rest (bal + paren_delta c)

/-- Separator set of the `strsep(&tagtokens, "() ")` tokenizer. -/
def license_sep (c : Char) : Bool :=
  c == '(' || c == ')' || c == ' '

/-- `strsep` tokenization: split the character list at every separator,
keeping empty tokens, exactly as repeated `strsep` calls produce them. -/
def split_seps : List Char → List (List Char)
  | [] => [[]]
  | c :: rest =>
    match split_seps rest with
    | [] => [[]]
    | t :: ts => if license_sep c then [] :: t :: ts else (c :: t) :: ts

/-- Token list of a license tag string. -/
def tokenize (s : String) : List String :=
  (split_seps s.data).map (fun t => String.mk t)

/-- ASCII lower casing as `strcasecmp` performs it byte by byte. -/
def ascii_lower (c : Char) : Char :=
  if 'A' ≤ c && c ≤ 'Z' then Char.ofNat (c.toNat + 32) else c

/-- Equality under `strcasecmp`. -/
def strcaseeq (a b : String) : Bool :=
  a.data.map ascii_lower == b.data.map ascii_lower

/-- The two boolean keywords recognised by the token loop (line 263). -/
def boolean_keyword (t : String) : Bool :=
  strcaseeq t "and" || strcaseeq t "or"

/-- The token loop of `is_valid_license` (lines 256-317) as explicit state:
the phrase being collected (`lic`, NULL as `none`), the `seen` counter (one
per phrase: the C `seen--`/`seen++` dance on joins nets to zero) and the
`valid` counter.  Reaching a database check with `lic == NULL` trips the
`assert(lic != NULL)` of `check_license_abbrev`, modelled as `none`.
At the end of the list this includes the final check of line 301. -/
def license_loop (db : LicenseDB) (tag : String) :
    List String → Option String → Nat → Nat → Option Bool
  | [], lic, seen, valid =>
    match lic with
    | none => none
    | some l =>
      match check_license_abbrev db tag l with
      | .wholeMatch => some true
      | .hit => some (seen == valid + 1)
      | .miss => some (seen == valid)
  | t :: rest, lic, seen, valid =>
    if t.length == 0 then
      license_loop db tag rest lic seen valid
    else if boolean_keyword t then
      match lic with
      | none => none
      | some l =>
        match check_license_abbrev db tag l with
        | .wholeMatch => some true
        | .hit => license_loop db tag rest none seen (valid + 1)
        | .miss => license_loop db tag rest none seen valid
    else
      match lic with
      | none => license_loop db tag rest (some t) (seen + 1) valid
      | some l => license_loop db tag rest (some (l ++ " " ++ t)) seen valid

/-- `is_valid_license` (src/lib/inspect_license.c lines 208-318) over an
already-loaded database: paren balance first (short-circuit false), then the
token loop.  `none` models the run aborting on the NULL-phrase assertion. -/
def is_valid_license (db : LicenseDB) (tag : String) : Option Bool :=
  if paren_scan tag.data 0 then
    license_loop db tag (tokenize tag) none 0 0
  else
    some false

/-- Phrase accumulator of the collecting branch (lines 268-284), used to state
what phrase a run of non-boolean tokens assembles. -/
def collect_phrase (lic : Option String) : List String → Option String
  | [] => lic
  | t :: ts =>
    if t.length == 0 then collect_phrase lic ts
    else
      match lic with
      | none => collect_phrase (some t) ts
      | some l => collect_phrase (some (l ++ " " ++ t)) ts

/-- One entry as a whole-tag matcher: not skipped for lacking both
abbreviations, approved, and equal to the whole tag by either abbreviation or
the canonical name. -/
def entry_whole (tag : String) (e : LicenseEntry) : Bool :=
  !(e.fedora_abbrev.length == 0 && e.spdx_abbrev.length == 0) &&
  (e.approved && (tag == e.fedora_abbrev || tag == e.spdx_abbrev || tag == e.license_name))

/-- One entry as a phrase matcher: not skipped, approved, and with the phrase
equal to its first or second abbreviation. -/
def entry_phrase (p : String) (e : LicenseEntry) : Bool :=
  !(e.fedora_abbrev.length == 0 && e.spdx_abbrev.length == 0) &&
  (e.approved && (p == e.fedora_abbrev || p == e.spdx_abbrev))

/-- An approved database entry with at least one non-empty abbreviation whose
canonical name or either abbreviation equals the whole tag: the condition
under which the scan of `check_license_abbrev` can report a whole match. -/
def whole_tag_match (db : LicenseDB) (tag : String) : Bool :=
  db.any (entry_whole tag)

/-- A phrase equal to the first or second abbreviation of some approved entry
that has at least one non-empty abbreviation. -/
def phrase_matches (db : LicenseDB) (p : String) : Bool :=
  db.any (entry_phrase p)

/-- The header data the license inspection reads from one after package:
its NEVRA string and the optional License tag (`headerGetString` returns
NULL as `none` when the tag is absent). -/
structure RpmHdr where
  nevra : String
  license : Option String
deriving DecidableEq, Repr

/-- `check_peer_license` (src/lib/inspect_license.c lines 117-165) with
`has_bad_word` (repository helper not under src/) passed in as the predicate
`badword`.  The result is the list of `add_result` calls plus the returned
`ret` value; `none` models the run aborting inside `is_valid_license`.
Note: the source sets `ret = 1` on every path, including the failure paths. -/
def check_peer_license (db : LicenseDB) (badword : String → Bool) (hdr : RpmHdr) :
    Option (List Finding × Nat) :=
  match hdr.license with
  | none =>
    some ([⟨.RESULT_BAD, .NOT_WAIVABLE, .HEADER_LICENSE,
            some ("Empty License Tag in " ++ hdr.nevra), none, some .REMEDY_LICENSE⟩], 1)
  | some license =>
    match is_valid_license db license with
    | none => none
    | some valid =>
      let base : List Finding :=
        if valid then
          [⟨.RESULT_INFO, .NOT_WAIVABLE, .HEADER_LICENSE,
            some ("Valid License Tag in " ++ hdr.nevra ++ ": " ++ license), none, none⟩]
        else
          [⟨.RESULT_BAD, .NOT_WAIVABLE, .HEADER_LICENSE,
            some ("Invalid License Tag in " ++ hdr.nevra ++ ": " ++ license), none,
            some .REMEDY_LICENSE⟩]
      let extra : List Finding :=
        if badword license then
          [⟨.RESULT_BAD, .NOT_WAIVABLE, .HEADER_LICENSE,
            some ("License Tag contains unprofessional language in " ++ hdr.nevra ++ ": " ++ license),
            none, some .REMEDY_LICENSE⟩]
        else []
      some (base ++ extra, 1)

/-- One binary peer as the license inspection sees it: the after header, or
`none` when `peer->after_rpm == NULL` (skipped subpackage). -/
structure LicensePeer where
  after : Option RpmHdr
deriving DecidableEq, Repr

/-- The peer loop of `inspect_license` (lines 349-370): accumulate `good` and
`seen`, then compare them and append the OK finding when they agree. -/
def license_peers_loop (db : LicenseDB) (badword : String → Bool) :
    List LicensePeer → Nat → Nat → List Finding → Option (List Finding × Bool)
  | [], good, seen, acc =>
    let result := good == seen
    if result then
      some (acc ++ [⟨.RESULT_OK, .NOT_WAIVABLE, .HEADER_LICENSE, none, none, none⟩], result)
    else
      some (acc, result)
  | p :: rest, good, seen, acc =>
    match p.after with
    | none => license_peers_loop db badword rest good seen acc
    | some hdr =>
      match check_peer_license db badword hdr with
      | none => none
      | some (fs, ret) => license_peers_loop db badword rest (good + ret) (seen + 1) (acc ++ fs)

/-- `inspect_license` (src/lib/inspect_license.c lines 323-371) after the
license database has been located and loaded (the missing-database branch is
filesystem interaction outside this model). -/
def inspect_license (db : LicenseDB) (badword : String → Bool) (peers : List LicensePeer) :
    Option (List Finding × Bool) :=
  license_peers_loop db badword peers 0 0 []

/-- The header fields the metadata inspection reads from one package.
`name` and `nevra` are the always-present identification strings; the four
policy fields are optional exactly as `headerGetString` returns them. -/
structure MetaHdr where
  name : String
  nevra : String
  vendor : Option String
  buildhost : Option String
  summary : Option String
  description : Option String
deriving DecidableEq, Repr

/-- The configuration the metadata inspection consumes: the expected vendor
string and the allowed build host subdomain suffix list (either may be NULL). -/
structure MetaCfg where
  vendor : Option String
  buildhost_subdomain : Option (List String)
deriving Repr

/-- Modelled from the spec: `strsuffix` (string helper not under src/) —
true iff the first string ends with the second. -/
def strsuffix (s suf : String) : Bool :=
  suf.data.isSuffixOf s.data

/-- Rendering of a possibly-NULL string interpolated with `%s` (glibc prints
`(null)` for a NULL argument, which the vendor INFO message can do). -/
def show_opt (s : Option String) : String :=
  match s with
  | none => "(null)"
  | some v => v

/-- `valid_peers` (src/lib/inspect_metadata.c lines 28-150) with
`has_bad_word` passed in as `badword`.  Result: the `add_result` calls plus
the returned boolean, or `none` when the function dereferences NULL: the
before/after drift block calls `strcmp` on the Summary and Description
fields without checking them for NULL first (lines 128 and 137). -/
def valid_peers (cfg : MetaCfg) (badword : String → Bool)
    (before : Option MetaHdr) (after : MetaHdr) : Option (List Finding × Bool) :=
  let vendor_part : List Finding × Bool :=
    match cfg.vendor with
    | none =>
      ([⟨.RESULT_INFO, .NOT_WAIVABLE, .HEADER_METADATA,
         some ("Vendor not set in rpminspect.conf, ignoring Package Vendor \"" ++
               show_opt after.vendor ++ "\" in " ++ after.nevra), none, some .REMEDY_VENDOR⟩], true)
    | some v =>
      match after.vendor with
      | some av =>
        if av != v then
          ([⟨.RESULT_BAD, .NOT_WAIVABLE, .HEADER_METADATA,
             some ("Package Vendor \"" ++ av ++ "\" is not \"" ++ v ++ "\" in " ++ after.nevra),
             none, some .REMEDY_VENDOR⟩], false)
        else ([], true)
      | none => ([], true)
  let buildhost_part : List Finding × Bool :=
    match after.buildhost, cfg.buildhost_subdomain with
    | some bh, some subs =>
      if subs.any (fun d => strsuffix bh d) then ([], true)
      else
        ([⟨.RESULT_BAD, .NOT_WAIVABLE, .HEADER_METADATA,
           some ("Package Build Host \"" ++ bh ++
                 "\" is not within an expected build host subdomain in " ++ after.nevra),
           none, some .REMEDY_BUILDHOST⟩], false)
    | _, _ => ([], true)
  let summary_part : List Finding × Bool :=
    match after.summary with
    | some s =>
      if badword s then
        ([⟨.RESULT_BAD, .NOT_WAIVABLE, .HEADER_METADATA,
           some ("Package Summary contains unprofessional language in " ++ after.nevra),
           some ("Summary: " ++ s), some .REMEDY_BADWORDS⟩], false)
      else ([], true)
    | none => ([], true)
  let description_part : List Finding × Bool :=
    match after.description with
    | some d =>
      if badword d then
        ([⟨.RESULT_BAD, .NOT_WAIVABLE, .HEADER_METADATA,
           some ("Package Description contains unprofessional language in " ++ after.nevra ++ ":"),
           some d, some .REMEDY_BADWORDS⟩], false)
      else ([], true)
    | none => ([], true)
  match before with
  | none =>
    some (vendor_part.1 ++ buildhost_part.1 ++ summary_part.1 ++ description_part.1,
          vendor_part.2 && buildhost_part.2 && summary_part.2 && description_part.2)
  | some b =>
    let vendor_drift : List Finding × Bool :=
      match b.vendor, after.vendor with
      | none, some av =>
        ([⟨.RESULT_VERIFY, .WAIVABLE_BY_ANYONE, .HEADER_METADATA,
           some ("Gained Package Vendor \"" ++ av ++ "\" in " ++ after.name), none, none⟩], false)
      | some bv, none =>
        ([⟨.RESULT_VERIFY, .WAIVABLE_BY_ANYONE, .HEADER_METADATA,
           some ("Lost Package Vendor \"" ++ bv ++ "\" in " ++ after.name), none, none⟩], false)
      | some bv, some av =>
        if bv != av then
          ([⟨.RESULT_VERIFY, .WAIVABLE_BY_ANYONE, .HEADER_METADATA,
             some ("Package Vendor changed from \"" ++ bv ++ "\" to \"" ++ av ++ "\" in " ++
                   after.name), none, none⟩], false)
        else ([], true)
      | none, none => ([], true)
    match b.summary, after.summary, b.description, after.description with
    | some bs, some asum, some bd, some ad =>
      let summary_drift : List Finding × Bool :=
        if bs != asum then
          ([⟨.RESULT_VERIFY, .WAIVABLE_BY_ANYONE, .HEADER_METADATA,
             some ("Package Summary change from \"" ++ bs ++ "\" to \"" ++ asum ++ "\" in " ++
                   after.name), none, none⟩], false)
        else ([], true)
      let description_drift : List Finding × Bool :=
        if bd != ad then
          ([⟨.RESULT_VERIFY, .WAIVABLE_BY_ANYONE, .HEADER_METADATA,
             some ("Package Description changed in " ++ after.name),
             some ("from:\n\n" ++ bd ++ "\n\nto:\n\n" ++ ad), none⟩], false)
        else ([], true)
      some (vendor_part.1 ++ buildhost_part.1 ++ summary_part.1 ++ description_part.1 ++
              vendor_drift.1 ++ summary_drift.1 ++ description_drift.1,
            vendor_part.2 && buildhost_part.2 && summary_part.2 && description_part.2 &&
              vendor_drift.2 && summary_drift.2 && description_drift.2)
    | _, _, _, _ => none

/-- One before/after kernel-module file pair as `kmod_driver` examines it,
after its scope guards (binary package, regular file, module path and
extension, both sides parse as modules).  The parameter, dependency and alias
data are the string listings the libkmod collaborator provides. -/
structure KmodPair where
  localpath : String
  beforeName : String
  afterName : String
  beforeVer : String
  afterVer : String
  beforeParams : List String
  afterParams : List String
  beforeDeps : List String
  afterDeps : List String
  aliasEvents : List (String × List String × List String)
deriving DecidableEq, Repr

/-- The pair of static globals `sev`/`waiver` of src/lib/inspect_kmod.c
(lines 27-28).  They persist across `kmod_driver` calls within the run. -/
structure KmodState where
  sev : Severity
  waiver : Waiver
deriving DecidableEq, Repr

/-- Initial values of the static globals: `RESULT_INFO` and `NOT_WAIVABLE`. -/
def kmod_initial_state : KmodState := ⟨.RESULT_INFO, .NOT_WAIVABLE⟩

/-- The escalation test of lines 119-123: package name and version unchanged. -/
def same_name_version (p : KmodPair) : Bool :=
  p.beforeName == p.afterName && p.afterVer == p.beforeVer

/-- Modelled from the spec: `compare_module_parameters` (kmod helper not
under src/) — set difference over string-valued introspection data,
`lost = before − after` and `gain = after − before`. -/
def compare_module_parameters (before after : List String) : List String × List String :=
  (before.filter (fun x => !(after.contains x)), after.filter (fun x => !(before.contains x)))

/-- Modelled from the spec: `compare_module_dependencies` (kmod helper not
under src/) — the same set difference as the parameter comparison. -/
def compare_module_dependencies (before after : List String) : List String × List String :=
  (before.filter (fun x => !(after.contains x)), after.filter (fun x => !(before.contains x)))

/-- The `lost_alias` visitor (src/lib/inspect_kmod.c lines 30-56): one
finding per before module that lost the alias and one per after module that
gained it, all at the current global severity/waiver pair. -/
def lost_alias (st : KmodState) (al : String) (beforeMods afterMods : List String) :
    List Finding :=
  beforeMods.map (fun m =>
    ⟨st.sev, st.waiver, .HEADER_KMOD,
     some ("Kernel module \x27" ++ m ++ "\x27 lost alias \x27" ++ al ++ "\x27"),
     none, some .REMEDY_KMOD_ALIAS⟩) ++
  afterMods.map (fun m =>
    ⟨st.sev, st.waiver, .HEADER_KMOD,
     some ("Kernel module \x27" ++ m ++ "\x27 gained alias \x27" ++ al ++ "\x27"),
     none, some .REMEDY_KMOD_ALIAS⟩)

/-- The reporting body of `kmod_driver` (src/lib/inspect_kmod.c lines
109-250) for one examined file pair: escalate the static severity pair when
name and version are unchanged (it is never reset), then report lost and
gained parameters, lost and gained dependencies, and alias changes.  Returns
the updated globals together with the findings in emission order. -/
def kmod_driver (st : KmodState) (p : KmodPair) : KmodState × List Finding :=
  let st := if same_name_version p then ⟨.RESULT_VERIFY, .WAIVABLE_BY_ANYONE⟩ else st
  let pd := compare_module_parameters p.beforeParams p.afterParams
  let lostParm := pd.1.map (fun x =>
    ⟨st.sev, st.waiver, .HEADER_KMOD,
     some ("Kernel module " ++ p.localpath ++ " removes parameter \x27" ++ x ++ "\x27"),
     none, some .REMEDY_KMOD_PARM⟩)
  let gainParm := pd.2.map (fun x =>
    (⟨.RESULT_INFO, .NOT_WAIVABLE, .HEADER_KMOD,
      some ("Kernel module " ++ p.localpath ++ " adds parameter \x27" ++ x ++ "\x27"),
      none, none⟩ : Finding))
  let dd := compare_module_dependencies p.beforeDeps p.afterDeps
  let lostDeps := dd.1.map (fun x =>
    ⟨st.sev, st.waiver, .HEADER_KMOD,
     some ("Kernel module " ++ p.localpath ++ " removes dependency \x27" ++ x ++ "\x27"),
     none, some .REMEDY_KMOD_DEPS⟩)
  let gainDeps := dd.2.map (fun x =>
    ⟨st.sev, st.waiver, .HEADER_KMOD,
     some ("Kernel module " ++ p.localpath ++ " adds dependency \x27" ++ x ++ "\x27"),
     none, some .REMEDY_KMOD_DEPS⟩)
  let aliasFindings := (p.aliasEvents.map (fun ev => lost_alias st ev.1 ev.2.1 ev.2.2)).flatten
  (st, lostParm ++ gainParm ++ lostDeps ++ gainDeps ++ aliasFindings)

/-- State of the static severity globals after a list of examined pairs. -/
def kmod_state_after (ps : List KmodPair) : KmodState :=
  ps.foldl (fun st p => (kmod_driver st p).1) kmod_initial_state

/-- The severity pair selected by an escalation flag: VERIFY and waivable by
anyone when escalated, the INFO and not-waivable defaults otherwise. -/
def kmod_escalated_pair (esc : Bool) : KmodState :=
  if esc then ⟨.RESULT_VERIFY, .WAIVABLE_BY_ANYONE⟩ else kmod_initial_state

/-- Follows the spec's words for the kmod findings of one pair: lost
parameters, lost and gained dependencies and alias changes at the
escalation-selected pair, gained parameters always pure INFO/not-waivable. -/
def kmod_expected_findings (esc : Bool) (p : KmodPair) : List Finding :=
  let st := kmod_escalated_pair esc
  let pd := compare_module_parameters p.beforeParams p.afterParams
  let dd := compare_module_dependencies p.beforeDeps p.afterDeps
  pd.1.map (fun x =>
    ⟨st.sev, st.waiver, .HEADER_KMOD,
     some ("Kernel module " ++ p.localpath ++ " removes parameter \x27" ++ x ++ "\x27"),
     none, some .REMEDY_KMOD_PARM⟩) ++
  pd.2.map (fun x =>
    (⟨.RESULT_INFO, .NOT_WAIVABLE, .HEADER_KMOD,
      some ("Kernel module " ++ p.localpath ++ " adds parameter \x27" ++ x ++ "\x27"),
      none, none⟩ : Finding)) ++
  dd.1.map (fun x =>
    ⟨st.sev, st.waiver, .HEADER_KMOD,
     some ("Kernel module " ++ p.localpath ++ " removes dependency \x27" ++ x ++ "\x27"),
     none, some .REMEDY_KMOD_DEPS⟩) ++
  dd.2.map (fun x =>
    ⟨st.sev, st.waiver, .HEADER_KMOD,
     some ("Kernel module " ++ p.localpath ++ " adds dependency \x27" ++ x ++ "\x27"),
     none, some .REMEDY_KMOD_DEPS⟩) ++
  (p.aliasEvents.map (fun ev => lost_alias st ev.1 ev.2.1 ev.2.2)).flatten

/-- The static severity/waiver/remedy globals of src/lib/inspect_upstream.c
(lines 28-30) after the version comparison of lines 196-207 set them. -/
structure UpstreamPolicy where
  sev : Severity
  waiver : Waiver
  remedy : Option Remedy
deriving DecidableEq, Repr

/-- The version-based selection of lines 196-207: versions changed gives
INFO/not-waivable with no remedy, versions unchanged gives VERIFY/waivable
by anyone with the upstream remedy. -/
def upstream_policy (bv av : String) : UpstreamPolicy :=
  if bv != av then ⟨.RESULT_INFO, .NOT_WAIVABLE, none⟩
  else ⟨.RESULT_VERIFY, .WAIVABLE_BY_ANYONE, some .REMEDY_UPSTREAM⟩

/-- One after-side SRPM member as `upstream_driver` examines it: its
basename, its digest, the peer's digest (`none` when there is no before
peer), and the detail blob the external diff collaborator would attach for a
changed text file (after the header-line stripping of lines 133-144). -/
structure SrcFileEntry where
  basename : String
  digest : String
  peerDigest : Option String
  diffDetail : Option String
deriving DecidableEq, Repr

/-- `is_source` (src/lib/inspect_upstream.c lines 72-99) against an
already-initialised declared-source basename list. -/
def is_source (source : List String) (basename : String) : Bool :=
  source.contains basename

/-- `upstream_driver` (src/lib/inspect_upstream.c lines 102-158): skip files
outside the declared source set; report a new file when there is no peer;
otherwise compare digests and report a content change. -/
def upstream_driver (pol : UpstreamPolicy) (source : List String) (f : SrcFileEntry) :
    List Finding × Bool :=
  if !(is_source source f.basename) then ([], true)
  else
    match f.peerDigest with
    | none =>
      ([⟨pol.sev, pol.waiver, .HEADER_UPSTREAM,
         some ("New upstream source file `" ++ f.basename ++ "` appeared"), none, pol.remedy⟩],
       false)
    | some bd =>
      if bd != f.digest then
        ([⟨pol.sev, pol.waiver, .HEADER_UPSTREAM,
           some ("Upstream source file `" ++ f.basename ++ "` changed content"),
           f.diffDetail, pol.remedy⟩],
         false)
      else ([], true)

/-- One before-side SRPM member for the removal loop: its basename and
whether it has an after peer. -/
structure BeforeFile where
  basename : String
  hasPeer : Bool
deriving DecidableEq, Repr

/-- One SRPM peer entry: the after-side members and the before-side members. -/
structure SrpmPeer where
  afterFiles : List SrcFileEntry
  beforeFiles : List BeforeFile
deriving DecidableEq, Repr

/-- The removal finding of lines 231-236, emitted for a before member with
no after peer (note: with no declared-source restriction). -/
def removal_finding (pol : UpstreamPolicy) (basename : String) : Finding :=
  ⟨pol.sev, pol.waiver, .HEADER_UPSTREAM,
   some ("Source RPM member `" ++ basename ++ "` removed"), none, pol.remedy⟩

/-- The per-peer body of the main loop of `inspect_upstream` (lines
210-239): skip empty after sides, run `upstream_driver` over the after
members, then report every peerless before member as removed. -/
def upstream_peer_findings (pol : UpstreamPolicy) (source : List String) (peer : SrpmPeer) :
    List Finding × Bool :=
  if peer.afterFiles.isEmpty then ([], true)
  else
    let dr := peer.afterFiles.map (upstream_driver pol source)
    let removed := peer.beforeFiles.filter (fun b => !b.hasPeer)
    ((dr.map Prod.fst).flatten ++ removed.map (fun b => removal_finding pol b.basename),
     dr.all Prod.snd && removed.isEmpty)

/-- `inspect_upstream` (src/lib/inspect_upstream.c lines 163-250) over the
SRPM peers, with the before and after versions read from the spec-file
member given as `bv`/`av` and the declared source list given as `source`. -/
def inspect_upstream (bv av : String) (source : List String) (peers : List SrpmPeer) :
    List Finding × Bool :=
  let pol := upstream_policy bv av
  let pr := peers.map (upstream_peer_findings pol source)
  let ok := pr.all Prod.snd
  if ok then
    ((pr.map Prod.fst).flatten ++ [⟨.RESULT_OK, .NOT_WAIVABLE, .HEADER_UPSTREAM, none, none, none⟩],
     ok)
  else
    ((pr.map Prod.fst).flatten, ok)

/-! ### Helper lemmas about the license validator -/

theorem whole_tag_match_cons (e : LicenseEntry) (rest : LicenseDB) (tag : String) :
    whole_tag_match (e :: rest) tag = (entry_whole tag e || whole_tag_match rest tag) := by
  simp [whole_tag_match, List.any_cons]

theorem phrase_matches_cons (e : LicenseEntry) (rest : LicenseDB) (p : String) :
    phrase_matches (e :: rest) p = (entry_phrase p e || phrase_matches rest p) := by
  simp [phrase_matches, List.any_cons]

theorem check_miss_iff (db : LicenseDB) (tag l : String) :
    check_license_abbrev db tag l = .miss ↔
      whole_tag_match db tag = false ∧ phrase_matches db l = false := by
  induction db with
  | nil => simp [check_license_abbrev, whole_tag_match, phrase_matches]
  | cons e rest ih =>
    rw [whole_tag_match_cons, phrase_matches_cons]
    cases hskip : (e.fedora_abbrev.length == 0 && e.spdx_abbrev.length == 0) with
    | true =>
      have hew : entry_whole tag e = false := by simp [entry_whole, hskip]
      have hep : entry_phrase l e = false := by simp [entry_phrase, hskip]
      rw [hew, hep, Bool.false_or, Bool.false_or]
      simpa [check_license_abbrev, hskip] using ih
    | false =>
      cases hw : (e.approved && (tag == e.fedora_abbrev || tag == e.spdx_abbrev ||
          tag == e.license_name)) with
      | true =>
        have hew : entry_whole tag e = true := by simp [entry_whole, hskip, hw]
        simp [check_license_abbrev, hskip, hw, hew]
      | false =>
        have hew : entry_whole tag e = false := by simp [entry_whole, hskip, hw]
        cases hh : (e.approved && (l == e.fedora_abbrev || l == e.spdx_abbrev)) with
        | true =>
          have hep : entry_phrase l e = true := by simp [entry_phrase, hskip, hh]
          simp [check_license_abbrev, hskip, hw, hh, hew, hep]
        | false =>
          have hep : entry_phrase l e = false := by simp [entry_phrase, hskip, hh]
          rw [hew, hep, Bool.false_or, Bool.false_or]
          simpa [check_license_abbrev, hskip, hw, hh] using ih

theorem check_whole_match {db : LicenseDB} {tag l : String}
    (h : check_license_abbrev db tag l = .wholeMatch) : whole_tag_match db tag = true := by
  induction db with
  | nil => simp [check_license_abbrev] at h
  | cons e rest ih =>
    rw [whole_tag_match_cons]
    cases hskip : (e.fedora_abbrev.length == 0 && e.spdx_abbrev.length == 0) with
    | true =>
      simp only [check_license_abbrev, hskip] at h
      simp only [if_true] at h
      rw [ih h, Bool.or_true]
    | false =>
      cases hw : (e.approved && (tag == e.fedora_abbrev || tag == e.spdx_abbrev ||
          tag == e.license_name)) with
      | true =>
        have hew : entry_whole tag e = true := by simp [entry_whole, hskip, hw]
        rw [hew, Bool.true_or]
      | false =>
        cases hh : (e.approved && (l == e.fedora_abbrev || l == e.spdx_abbrev)) with
        | true => simp [check_license_abbrev, hskip, hw, hh] at h
        | false =>
          simp only [check_license_abbrev, hskip, hw, hh] at h
          simp only [Bool.false_eq_true, if_false] at h
          rw [ih h, Bool.or_true]

theorem check_hit_match {db : LicenseDB} {tag l : String}
    (h : check_license_abbrev db tag l = .hit) : phrase_matches db l = true := by
  induction db with
  | nil => simp [check_license_abbrev] at h
  | cons e rest ih =>
    rw [phrase_matches_cons]
    cases hskip : (e.fedora_abbrev.length == 0 && e.spdx_abbrev.length == 0) with
    | true =>
      simp only [check_license_abbrev, hskip] at h
      simp only [if_true] at h
      rw [ih h, Bool.or_true]
    | false =>
      cases hw : (e.approved && (tag == e.fedora_abbrev || tag == e.spdx_abbrev ||
          tag == e.license_name)) with
      | true => simp [check_license_abbrev, hskip, hw] at h
      | false =>
        cases hh : (e.approved && (l == e.fedora_abbrev || l == e.spdx_abbrev)) with
        | true =>
          have hep : entry_phrase l e = true := by simp [entry_phrase, hskip, hh]
          rw [hep, Bool.true_or]
        | false =>
          simp only [check_license_abbrev, hskip, hw, hh] at h
          simp only [Bool.false_eq_true, if_false] at h
          rw [ih h, Bool.or_true]

theorem license_loop_append_some (db : LicenseDB) (tag : String) :
    ∀ (ts : List String), (∀ t ∈ ts, boolean_keyword t = false) →
    ∀ (rest : List String) (l : String) (seen valid : Nat),
      license_loop db tag (ts ++ rest) (some l) seen valid =
        license_loop db tag rest (collect_phrase (some l) ts) seen valid := by
  intro ts
  induction ts with
  | nil => intro _ rest l seen valid; rfl
  | cons t ts ih =>
    intro hts rest l seen valid
    have hb : boolean_keyword t = false := hts t (List.mem_cons_self t ts)
    have hts' : ∀ x ∈ ts, boolean_keyword x = false :=
      fun x hx => hts x (List.mem_cons_of_mem t hx)
    by_cases hlen : (t.length == 0) = true
    · simpa [license_loop, collect_phrase, hlen] using ih hts' rest l seen valid
    · simpa [license_loop, collect_phrase, hlen, hb] using
        ih hts' rest (l ++ " " ++ t) seen valid

theorem license_loop_append_phrase (db : LicenseDB) (tag : String) :
    ∀ (ts : List String), (∀ t ∈ ts, boolean_keyword t = false) →
    ∀ (φ : String), collect_phrase none ts = some φ →
    ∀ (rest : List String) (seen valid : Nat),
      license_loop db tag (ts ++ rest) none seen valid =
        license_loop db tag rest (some φ) (seen + 1) valid := by
  intro ts
  induction ts with
  | nil => intro _ φ hφ; simp [collect_phrase] at hφ
  | cons t ts ih =>
    intro hts φ hφ rest seen valid
    have hb : boolean_keyword t = false := hts t (List.mem_cons_self t ts)
    have hts' : ∀ x ∈ ts, boolean_keyword x = false :=
      fun x hx => hts x (List.mem_cons_of_mem t hx)
    by_cases hlen : (t.length == 0) = true
    · simp only [collect_phrase, hlen, if_true] at hφ
      simpa [license_loop, hlen] using ih hts' φ hφ rest seen valid
    · simp only [collect_phrase, hlen, Bool.false_eq_true, if_false] at hφ
      have hst := license_loop_append_some db tag ts hts' rest t (seen + 1) valid
      rw [hφ] at hst
      simpa [license_loop, hlen, hb] using hst

theorem split_seps_ne_nil (l : List Char) : split_seps l ≠ [] := by
  cases l with
  | nil => simp [split_seps]
  | cons c rest =>
    cases hs : split_seps rest with
    | nil => simp [split_seps, hs]
    | cons t ts =>
      by_cases hc : license_sep c = true <;> simp [split_seps, hs, hc]

theorem split_seps_sep_append (c : Char) (hc : license_sep c = true) :
    ∀ (xs ys : List Char), split_seps (xs ++ c :: ys) = split_seps xs ++ split_seps ys := by
  intro xs
  induction xs with
  | nil =>
    intro ys
    cases hs : split_seps ys with
    | nil => exact absurd hs (split_seps_ne_nil ys)
    | cons t ts => simp [split_seps, hs, hc]
  | cons a xs ih =>
    intro ys
    cases hs : split_seps xs with
    | nil => exact absurd hs (split_seps_ne_nil xs)
    | cons t ts =>
      have hx := ih ys
      rw [hs] at hx
      by_cases ha : license_sep a = true <;>
        simp [split_seps, hs, hx, ha]

theorem tokenize_append_and (A B : String) :
    tokenize (A ++ " and " ++ B) = tokenize A ++ ["and"] ++ tokenize B := by
  have hdata : (A ++ " and " ++ B).data =
      A.data ++ ' ' :: (['a', 'n', 'd'] ++ ' ' :: B.data) := by
    cases A with
    | mk la =>
      cases B with
      | mk lb => simp [String.data]
  have hsp : license_sep ' ' = true := by decide
  rw [tokenize, hdata, split_seps_sep_append ' ' hsp,
    split_seps_sep_append ' ' hsp ['a', 'n', 'd'] B.data]
  have hand : split_seps ['a', 'n', 'd'] = [['a', 'n', 'd']] := by decide
  rw [hand]
  simp [tokenize, String.mk]

theorem license_loop_all_empty (db : LicenseDB) (tag : String) :
    ∀ (ts : List String), (∀ t ∈ ts, (t.length == 0) = true) →
    ∀ (lic : Option String) (seen valid : Nat),
      license_loop db tag ts lic seen valid = license_loop db tag [] lic seen valid := by
  intro ts
  induction ts with
  | nil => intro _ lic seen valid; rfl
  | cons t ts ih =>
    intro hts lic seen valid
    have hl : (t.length == 0) = true := hts t (List.mem_cons_self t ts)
    have hts' : ∀ x ∈ ts, (x.length == 0) = true :=
      fun x hx => hts x (List.mem_cons_of_mem t hx)
    simpa [license_loop, hl] using ih hts' lic seen valid

theorem split_seps_all_sep :
    ∀ (l : List Char), (∀ c ∈ l, license_sep c = true) →
    ∀ t ∈ split_seps l, t = [] := by
  intro l
  induction l with
  | nil =>
    intro _ t ht
    simpa [split_seps] using ht
  | cons c rest ih =>
    intro hl t ht
    have hc : license_sep c = true := hl c (List.mem_cons_self c rest)
    have hrest : ∀ x ∈ rest, license_sep x = true :=
      fun x hx => hl x (List.mem_cons_of_mem c hx)
    cases hs : split_seps rest with
    | nil => exact absurd hs (split_seps_ne_nil rest)
    | cons u us =>
      simp only [split_seps, hs, hc, if_true] at ht
      rcases List.mem_cons.mp ht with h0 | h1
      · exact h0
      · exact ih hrest t (by rw [hs]; exact h1)

/-- Running balance total of a character list, for stating claim C2. -/
def paren_total (l : List Char) : Int :=
  (l.map paren_delta).sum

/-- A license tag with unbalanced parentheses in the sense of the spec: the
running depth goes negative at some point of the scan, or the final depth is
not zero. -/
def license_unbalanced (tag : String) : Prop :=
  (∃ n : Nat, paren_total (tag.data.take n) < 0) ∨ paren_total tag.data ≠ 0

theorem paren_scan_sound :
    ∀ (l : List Char) (b : Int), paren_scan l b = true →
      b + paren_total l = 0 ∧ ∀ n : Nat, 0 ≤ b + paren_total (l.take n) := by
  intro l
  induction l with
  | nil =>
    intro b h
    have hb : b = 0 := by simpa [paren_scan] using h
    constructor
    · simp [paren_total, hb]
    · intro n; simp [paren_total, hb]
  | cons c rest ih =>
    intro b h
    by_cases hneg : b < 0
    · simp [paren_scan, hneg] at h
    · simp only [paren_scan, hneg, if_false] at h
      obtain ⟨h1, h2⟩ := ih (b + paren_delta c) h
      have htot : paren_total (c :: rest) = paren_delta c + paren_total rest := by
        simp [paren_total]
      constructor
      · rw [htot]; omega
      · intro n
        cases n with
        | zero => simp [paren_total]; omega
        | succ m =>
          have : paren_total (c :: rest.take m) = paren_delta c + paren_total (rest.take m) := by
            simp [paren_total]
          have hm := h2 m
          simp only [List.take_succ_cons, this]
          omega

theorem paren_scan_spaces :
    ∀ (l : List Char), (∀ c ∈ l, paren_delta c = 0) → paren_scan l 0 = true := by
  intro l
  induction l with
  | nil => intro _; simp [paren_scan]
  | cons c rest ih =>
    intro h
    have hc : paren_delta c = 0 := h c (List.mem_cons_self c rest)
    have h' : ∀ x ∈ rest, paren_delta x = 0 :=
      fun x hx => h x (List.mem_cons_of_mem c hx)
    simpa [paren_scan, hc] using ih h'

/-! ### Claim theorems: the license validator (C1 - C4) -/

/-- Database used to refute claim C1: the whole expression "A and B" is
itself an approved entry's abbreviation, although neither phrase is. -/
def c1db : LicenseDB := [⟨"N", "A and B", "", true⟩]

/-- C1 counterexample: `is_valid("A and B")` is true although neither "A"
nor "B" equals any approved entry's first or second abbreviation, because
the whole-tag shortcut fires on the full expression.  This refutes the
claimed equivalence. -/
theorem c1_cex :
    is_valid_license c1db "A and B" = some true ∧
    c1db.any (fun e => e.approved && ("A" == e.fedora_abbrev || "A" == e.spdx_abbrev)) = false ∧
    c1db.any (fun e => e.approved && ("B" == e.fedora_abbrev || "B" == e.spdx_abbrev)) = false := by
  decide

/-- C1 (amended): for phrases A and B (strings that tokenize to non-boolean
tokens and reassemble to themselves), `is_valid(A and B)` is true iff the
whole expression matches an approved entry with a non-empty abbreviation
(whole-tag shortcut) or both A and B each match an approved entry's first or
second abbreviation form. -/
theorem c1_and_expression (db : LicenseDB) (A B : String)
    (hAnb : ∀ t ∈ tokenize A, boolean_keyword t = false)
    (hBnb : ∀ t ∈ tokenize B, boolean_keyword t = false)
    (hAphi : collect_phrase none (tokenize A) = some A)
    (hBphi : collect_phrase none (tokenize B) = some B)
    (hbal : paren_scan (A ++ " and " ++ B).data 0 = true) :
    is_valid_license db (A ++ " and " ++ B) = some true ↔
      (whole_tag_match db (A ++ " and " ++ B) = true ∨
        (phrase_matches db A = true ∧ phrase_matches db B = true)) := by
  rw [is_valid_license, if_pos hbal, tokenize_append_and]
  simp only [List.append_assoc, List.singleton_append]
  rw [license_loop_append_phrase db (A ++ " and " ++ B) (tokenize A) hAnb A hAphi
    ("and" :: tokenize B) 0 0]
  have handb : boolean_keyword "and" = true := by decide
  have handlen : (("and" : String).length == 0) = false := by decide
  cases hA : check_license_abbrev db (A ++ " and " ++ B) A with
  | wholeMatch =>
    have hW := check_whole_match hA
    simp [license_loop, handlen, handb, hA, hW]
  | hit =>
    have hpA := check_hit_match hA
    rw [show license_loop db (A ++ " and " ++ B) ("and" :: tokenize B) (some A) (0 + 1) 0 =
        license_loop db (A ++ " and " ++ B) (tokenize B) none (0 + 1) (0 + 1) by
      simp [license_loop, handlen, handb, hA]]
    have h2 := license_loop_append_phrase db (A ++ " and " ++ B) (tokenize B) hBnb B hBphi
      [] (0 + 1) (0 + 1)
    rw [List.append_nil] at h2
    rw [h2]
    cases hB : check_license_abbrev db (A ++ " and " ++ B) B with
    | wholeMatch =>
      have hW := check_whole_match hB
      simp [license_loop, hB, hW]
    | hit =>
      have hpB := check_hit_match hB
      simp [license_loop, hB, hpA, hpB]
    | miss =>
      obtain ⟨hW, hpB⟩ := (check_miss_iff db (A ++ " and " ++ B) B).mp hB
      simp [license_loop, hB, hW, hpB]
  | miss =>
    obtain ⟨hW, hpA⟩ := (check_miss_iff db (A ++ " and " ++ B) A).mp hA
    rw [show license_loop db (A ++ " and " ++ B) ("and" :: tokenize B) (some A) (0 + 1) 0 =
        license_loop db (A ++ " and " ++ B) (tokenize B) none (0 + 1) 0 by
      simp [license_loop, handlen, handb, hA]]
    have h2 := license_loop_append_phrase db (A ++ " and " ++ B) (tokenize B) hBnb B hBphi
      [] (0 + 1) 0
    rw [List.append_nil] at h2
    rw [h2]
    cases hB : check_license_abbrev db (A ++ " and " ++ B) B with
    | wholeMatch => exact absurd (check_whole_match hB) (by simp [hW])
    | hit => simp [license_loop, hB, hW, hpA]
    | miss => simp [license_loop, hB, hW, hpA]

/-- C1 witness: a concrete database and phrases exercising the amended
equivalence in the positive direction. -/
theorem c1_witness :
    (∀ t ∈ tokenize "GPLv2+", boolean_keyword t = false) ∧
    (∀ t ∈ tokenize "MIT", boolean_keyword t = false) ∧
    collect_phrase none (tokenize "GPLv2+") = some "GPLv2+" ∧
    collect_phrase none (tokenize "MIT") = some "MIT" ∧
    paren_scan ("GPLv2+" ++ " and " ++ "MIT").data 0 = true ∧
    (is_valid_license [⟨"GPL", "GPLv2+", "", true⟩, ⟨"MIT License", "MIT", "MIT", true⟩]
        ("GPLv2+" ++ " and " ++ "MIT") = some true ↔
      (whole_tag_match [⟨"GPL", "GPLv2+", "", true⟩, ⟨"MIT License", "MIT", "MIT", true⟩]
          ("GPLv2+" ++ " and " ++ "MIT") = true ∨
        (phrase_matches [⟨"GPL", "GPLv2+", "", true⟩, ⟨"MIT License", "MIT", "MIT", true⟩]
            "GPLv2+" = true ∧
         phrase_matches [⟨"GPL", "GPLv2+", "", true⟩, ⟨"MIT License", "MIT", "MIT", true⟩]
            "MIT" = true))) :=
  ⟨by decide, by decide, by decide, by decide, by decide,
   c1_and_expression _ "GPLv2+" "MIT" (by decide) (by decide) (by decide) (by decide)
     (by decide)⟩

/-- C2: an expression with unbalanced parentheses (running depth negative at
some point, or non-zero final depth) is rejected by `is_valid_license` for
every database: the balance scan short-circuits to false before any database
lookup. -/
theorem c2_unbalanced_invalid (db : LicenseDB) (tag : String)
    (h : license_unbalanced tag) : is_valid_license db tag = some false := by
  have hscan : paren_scan tag.data 0 = false := by
    cases hk : paren_scan tag.data 0 with
    | false => rfl
    | true =>
      obtain ⟨h1, h2⟩ := paren_scan_sound tag.data 0 hk
      rcases h with ⟨n, hn⟩ | hne
      · have := h2 n
        omega
      · omega
  simp [is_valid_license, hscan]

/-- C2 witness: a tag whose running depth dips negative although the final
depth is zero, rejected under the empty database. -/
theorem c2_witness :
    license_unbalanced ")x(" ∧ is_valid_license [] ")x(" = some false :=
  ⟨Or.inl ⟨1, by decide⟩, c2_unbalanced_invalid [] ")x(" (Or.inl ⟨1, by decide⟩)⟩

/-- Database used to refute claim C3: an approved entry with both
abbreviation forms empty. -/
def c3db : LicenseDB := [⟨"Foo", "", "", true⟩]

/-- C3 counterexample: the expression equals the canonical name of an
approved entry, yet `is_valid_license` answers false because the entry is
skipped for having both abbreviation forms empty, so the whole-tag shortcut
never fires for it. -/
theorem c3_cex :
    (⟨"Foo", "", "", true⟩ : LicenseEntry) ∈ c3db ∧
    (⟨"Foo", "", "", true⟩ : LicenseEntry).approved = true ∧
    is_valid_license c3db "Foo" = some false := by
  decide

/-- C3 (amended): the whole-tag shortcut holds for approved entries that
carry at least one non-empty abbreviation, for well-formed expressions
(balanced, no boolean keyword among the tokens, at least one non-empty
token); and an entry with both abbreviations empty is skipped by the
database scan, never dereferenced further. -/
theorem c3_whole_tag_shortcut (db : LicenseDB) (e : LicenseEntry) (tag : String)
    (he : e ∈ db) (happ : e.approved = true)
    (habb : (e.fedora_abbrev.length == 0 && e.spdx_abbrev.length == 0) = false)
    (htag : tag = e.license_name ∨ tag = e.fedora_abbrev ∨ tag = e.spdx_abbrev)
    (hbal : paren_scan tag.data 0 = true)
    (hnb : ∀ t ∈ tokenize tag, boolean_keyword t = false)
    (φ : String) (hphi : collect_phrase none (tokenize tag) = some φ) :
    is_valid_license db tag = some true ∧
      ∀ (e0 : LicenseEntry) (rest : LicenseDB) (l : String),
        (e0.fedora_abbrev.length == 0 && e0.spdx_abbrev.length == 0) = true →
        check_license_abbrev (e0 :: rest) tag l = check_license_abbrev rest tag l := by
  constructor
  · have hW : whole_tag_match db tag = true := by
      refine List.any_eq_true.mpr ⟨e, he, ?_⟩
      rw [entry_whole, habb, happ]
      rcases htag with h | h | h <;> simp [h]
    have hloop := license_loop_append_phrase db tag (tokenize tag) hnb φ hphi [] 0 0
    rw [List.append_nil] at hloop
    rw [is_valid_license, if_pos hbal, hloop]
    cases hchk : check_license_abbrev db tag φ with
    | wholeMatch => simp [license_loop, hchk]
    | hit => simp [license_loop, hchk]
    | miss =>
      obtain ⟨hW', _⟩ := (check_miss_iff db tag φ).mp hchk
      rw [hW] at hW'
      exact absurd hW' (by simp)
  · intro e0 rest l hskip
    simp [check_license_abbrev, hskip]

/-- C3 witness: a concrete approved entry with a canonical-name whole
match. -/
theorem c3_witness :
    (⟨"Q Public License", "QPL", "", true⟩ : LicenseEntry) ∈
        [(⟨"Q Public License", "QPL", "", true⟩ : LicenseEntry)] ∧
    is_valid_license [⟨"Q Public License", "QPL", "", true⟩] "Q Public License" = some true :=
  ⟨by decide,
   (c3_whole_tag_shortcut [⟨"Q Public License", "QPL", "", true⟩]
      ⟨"Q Public License", "QPL", "", true⟩ "Q Public License"
      (by decide) (by decide) (by decide) (Or.inl rfl) (by decide) (by decide)
      "Q Public License" (by decide)).1⟩

/-- C4 counterexample: the empty license expression does not validate as
true; the run never produces a boolean (the final phrase check is entered
with no collected phrase, tripping the `assert(lic != NULL)`). -/
theorem c4_cex : is_valid_license [] "" ≠ some true := by decide

/-- C4 (amended): for every database, an expression consisting only of
spaces (including the empty expression) drives `is_valid_license` into the
final `check_license_abbrev` call with a NULL phrase: the assertion fires
and no boolean verdict is returned, rather than the claimed vacuous true. -/
theorem c4_blank_expression (db : LicenseDB) (tag : String)
    (h : ∀ c ∈ tag.data, c = ' ') : is_valid_license db tag = none := by
  have hdelta : ∀ c ∈ tag.data, paren_delta c = 0 := by
    intro c hc
    rw [h c hc]
    decide
  have hscan := paren_scan_spaces tag.data hdelta
  have hsep : ∀ c ∈ tag.data, license_sep c = true := by
    intro c hc
    rw [h c hc]
    decide
  have htok : ∀ t ∈ tokenize tag, (t.length == 0) = true := by
    intro t ht
    rw [tokenize] at ht
    obtain ⟨u, hu, rfl⟩ := List.mem_map.mp ht
    rw [split_seps_all_sep tag.data hsep u hu]
    decide
  rw [is_valid_license, if_pos hscan,
    license_loop_all_empty db tag (tokenize tag) htok none 0 0]
  rfl

/-- C4 witness: the empty expression under the empty database. -/
theorem c4_witness :
    (∀ c ∈ ("" : String).data, c = ' ') ∧ is_valid_license [] "" = none :=
  ⟨by decide, c4_blank_expression [] "" (by decide)⟩

/-! ### Claim theorems: the license inspection driver (C5, C10) -/

/-- C5: evaluation of the code at the failing input.  One after package with
an absent License tag: `check_peer_license` records a BAD finding yet still
returns 1, so `good == seen` holds, `inspect_license` returns true and
appends the OK finding next to the BAD one — contradicting the claimed
conjunction semantics (`ret = 1` is set on every branch of
`check_peer_license`). -/
theorem c5_bug_eval :
    inspect_license [] (fun _ => false) [⟨some ⟨"pkg-1-1.x86_64", none⟩⟩] =
      some ([⟨.RESULT_BAD, .NOT_WAIVABLE, .HEADER_LICENSE,
              some "Empty License Tag in pkg-1-1.x86_64", none, some .REMEDY_LICENSE⟩,
             ⟨.RESULT_OK, .NOT_WAIVABLE, .HEADER_LICENSE, none, none, none⟩], true) := by
  rfl

/-- C10: for every database, bad-word predicate and package NEVRA, an absent
License header tag produces exactly one BAD, not-waivable finding under the
license inspection tag with the "Empty License Tag" headline and the license
remedy — and nothing else: neither database validation nor the bad-word scan
contributes (the result does not depend on `db` or `badword`). -/
theorem c10_empty_license_tag (db : LicenseDB) (badword : String → Bool) (nevra : String) :
    check_peer_license db badword ⟨nevra, none⟩ =
      some ([⟨.RESULT_BAD, .NOT_WAIVABLE, .HEADER_LICENSE,
              some ("Empty License Tag in " ++ nevra), none, some .REMEDY_LICENSE⟩], 1) := by
  rfl

/-! ### Claim theorems: the metadata inspection (C9) -/

/-- C9: evaluation of the code at the failing input.  A before header
exists but its Summary field is absent: the drift block calls
`strcmp(before_summary, after_summary)` without a NULL check, so the
comparison dereferences NULL (modelled as no result) instead of being
skipped without a finding as the claim states.  The vendor drift check just
above does test its fields for NULL. -/
theorem c9_bug_eval :
    valid_peers ⟨none, none⟩ (fun _ => false)
      (some ⟨"pkg", "pkg-1-1.x86_64", none, none, none, some "desc"⟩)
      ⟨"pkg", "pkg-1-1.x86_64", none, none, some "summary", some "desc"⟩ = none := by
  rfl

/-! ### Claim theorems: the kmod inspection (C6) -/

/-- First examined pair of the C6 counterexample run: name and version
unchanged, no parameter changes (escalates the static globals silently). -/
def c6pair1 : KmodPair :=
  ⟨"/lib/modules/5.0/extra/foo.ko", "kernel", "kernel", "5.0", "5.0",
   ["level"], ["level"], [], [], []⟩

/-- Second examined pair of the C6 counterexample run: version changed,
one lost parameter. -/
def c6pair2 : KmodPair :=
  ⟨"/lib/modules/5.1/extra/bar.ko", "kernel", "kernel", "5.0", "5.1",
   ["debug"], [], [], [], []⟩

/-- C6 counterexample: a pair whose package version changed still reports
its lost parameter at VERIFY/anyone-waivable — not the inspection-selected
default INFO/not-waivable the claim requires — because an earlier pair with
unchanged name/version escalated the static `sev`/`waiver` globals and they
are never reset. -/
theorem c6_cex :
    same_name_version c6pair2 = false ∧
    (kmod_driver (kmod_state_after [c6pair1]) c6pair2).2 =
      [⟨.RESULT_VERIFY, .WAIVABLE_BY_ANYONE, .HEADER_KMOD,
        some "Kernel module /lib/modules/5.1/extra/bar.ko removes parameter \x27debug\x27",
        none, some .REMEDY_KMOD_PARM⟩] := by
  decide

theorem kmod_driver_state (st : KmodState) (p : KmodPair) :
    (kmod_driver st p).1 =
      if same_name_version p then ⟨.RESULT_VERIFY, .WAIVABLE_BY_ANYONE⟩ else st := rfl

theorem kmod_foldl_state :
    ∀ (ps : List KmodPair) (st : KmodState),
      ps.foldl (fun st p => (kmod_driver st p).1) st =
        if ps.any same_name_version then ⟨.RESULT_VERIFY, .WAIVABLE_BY_ANYONE⟩ else st := by
  intro ps
  induction ps with
  | nil => intro st; simp
  | cons p ps ih =>
    intro st
    rw [List.foldl_cons, kmod_driver_state, ih]
    cases hp : same_name_version p <;> cases hq : ps.any same_name_version <;>
      simp [List.any_cons, hp, hq]

theorem kmod_state_after_eq (ps : List KmodPair) :
    kmod_state_after ps = kmod_escalated_pair (ps.any same_name_version) := by
  rw [kmod_state_after, kmod_foldl_state]
  cases h : ps.any same_name_version <;>
    simp [kmod_escalated_pair, kmod_initial_state, h]

/-- C6 (amended): for a pair examined after the pairs `ps`, every
lost-parameter (and dependency/alias) finding carries VERIFY and
anyone-waivable exactly when this pair *or some earlier examined pair* had
unchanged package name and version (the static escalation is never reset),
and every gained-parameter finding is INFO and not waivable regardless. -/
theorem c6_sticky_escalation (ps : List KmodPair) (p : KmodPair) :
    (kmod_driver (kmod_state_after ps) p).2 =
      kmod_expected_findings (same_name_version p || ps.any same_name_version) p := by
  rw [kmod_state_after_eq]
  cases hp : same_name_version p with
  | true => simp [kmod_driver, kmod_expected_findings, kmod_escalated_pair, hp]
  | false =>
    cases hq : ps.any same_name_version <;>
      simp [kmod_driver, kmod_expected_findings, kmod_escalated_pair, kmod_initial_state,
        hp, hq]

/-! ### Claim theorems: the upstream inspection (C7, C8) -/

/-- C7 counterexample: with the package version unchanged between builds, a
declared source file with no before peer is reported at VERIFY and waivable
by anyone (with the upstream remedy), not at the claimed unconditional
INFO/not-waivable: the new-file finding uses the version-selected static
globals. -/
theorem c7_cex :
    upstream_policy "1.0" "1.0" =
      ⟨.RESULT_VERIFY, .WAIVABLE_BY_ANYONE, some .REMEDY_UPSTREAM⟩ ∧
    upstream_driver (upstream_policy "1.0" "1.0") ["pkg.tar.gz"]
        ⟨"pkg.tar.gz", "d1", none, none⟩ =
      ([⟨.RESULT_VERIFY, .WAIVABLE_BY_ANYONE, .HEADER_UPSTREAM,
         some "New upstream source file `pkg.tar.gz` appeared", none, some .REMEDY_UPSTREAM⟩],
       false) := by
  decide

/-- C7 (amended): a declared source file present only in the after build
yields exactly one "new upstream source file" finding whose severity,
waiver and remedy are the version-selected pair: INFO/not-waivable with no
remedy when the package version changed, VERIFY/anyone-waivable with the
upstream remedy when it did not. -/
theorem c7_new_file_policy (bv av : String) (source : List String) (f : SrcFileEntry)
    (hs : is_source source f.basename = true) (hp : f.peerDigest = none) :
    upstream_driver (upstream_policy bv av) source f =
      ([⟨(if bv == av then Severity.RESULT_VERIFY else Severity.RESULT_INFO),
         (if bv == av then Waiver.WAIVABLE_BY_ANYONE else Waiver.NOT_WAIVABLE),
         .HEADER_UPSTREAM,
         some ("New upstream source file `" ++ f.basename ++ "` appeared"), none,
         (if bv == av then some Remedy.REMEDY_UPSTREAM else none)⟩], false) := by
  cases hv : (bv == av) <;>
    simp [upstream_driver, upstream_policy, bne, hs, hp, hv]

/-- C7 witness: a changed version giving the INFO/not-waivable shape of the
amended statement. -/
theorem c7_witness :
    is_source ["a.tar"] "a.tar" = true ∧
    upstream_driver (upstream_policy "1.0" "2.0") ["a.tar"] ⟨"a.tar", "d", none, none⟩ =
      ([⟨(if "1.0" == "2.0" then Severity.RESULT_VERIFY else Severity.RESULT_INFO),
         (if "1.0" == "2.0" then Waiver.WAIVABLE_BY_ANYONE else Waiver.NOT_WAIVABLE),
         .HEADER_UPSTREAM,
         some ("New upstream source file `" ++ "a.tar" ++ "` appeared"), none,
         (if "1.0" == "2.0" then some Remedy.REMEDY_UPSTREAM else none)⟩], false) :=
  ⟨by decide,
   c7_new_file_policy "1.0" "2.0" ["a.tar"] ⟨"a.tar", "d", none, none⟩ (by decide) rfl⟩

/-- C8 counterexample: a before-side SRPM member outside the declared source
set and with no after peer still yields a "Source RPM member removed"
finding — the removal loop has no `is_source` restriction — contradicting
the claim that such a file produces no finding. -/
theorem c8_cex :
    is_source ["pkg.spec"] "mystery.bin" = false ∧
    inspect_upstream "1.0" "2.0" ["pkg.spec"]
        [⟨[⟨"pkg.spec", "d", some "d", none⟩], [⟨"mystery.bin", false⟩]⟩] =
      ([⟨.RESULT_INFO, .NOT_WAIVABLE, .HEADER_UPSTREAM,
         some "Source RPM member `mystery.bin` removed", none, none⟩], false) := by
  decide

/-- C8 (amended): every before-side member with no after peer of an SRPM
whose after side is non-empty produces a removal finding at the same
severity/waiver/remedy globals as content changes, irrespective of the
declared source set (the `is_source` restriction applies only to after-side
files). -/
theorem c8_removal_unrestricted (pol : UpstreamPolicy) (source : List String)
    (peer : SrpmPeer) (b : BeforeFile)
    (hb : b ∈ peer.beforeFiles) (hnp : b.hasPeer = false)
    (hne : peer.afterFiles.isEmpty = false) :
    removal_finding pol b.basename ∈ (upstream_peer_findings pol source peer).1 := by
  rw [upstream_peer_findings]
  simp only [hne, Bool.false_eq_true, if_false]
  refine List.mem_append.mpr (Or.inr ?_)
  refine List.mem_map.mpr ⟨b, ?_, rfl⟩
  refine List.mem_filter.mpr ⟨hb, ?_⟩
  simp [hnp]

/-- C8 witness: a peerless before member outside an empty declared source
set still appears among the emitted findings. -/
theorem c8_witness :
    (⟨"m.bin", false⟩ : BeforeFile) ∈ [(⟨"m.bin", false⟩ : BeforeFile)] ∧
    removal_finding (upstream_policy "1.0" "1.0") "m.bin" ∈
      (upstream_peer_findings (upstream_policy "1.0" "1.0") []
        ⟨[⟨"a", "d", none, none⟩], [⟨"m.bin", false⟩]⟩).1 :=
  ⟨by decide,
   c8_removal_unrestricted (upstream_policy "1.0" "1.0") []
     ⟨[⟨"a", "d", none, none⟩], [⟨"m.bin", false⟩]⟩ ⟨"m.bin", false⟩
     (by decide) rfl rfl⟩

end RpmInspect
